import Mathlib

/-!
Verification development for the `invest` calculator.

The source program (`src/invest.py`) is a single-file financial calculator.
Its numeric helpers are embedded here over `ℚ` (the program uses
double-precision floats; the spec promises no precision guarantees beyond
ordinary arithmetic, so exact rational arithmetic is the shallow embedding).
Fallible operations (Python `float(...)` raising `ValueError`, division
raising `ZeroDivisionError`) are embedded as `Option`-valued functions.
Module-level mutable values read by the calculator (`preferred_return_rate`,
`carry_percent`, `capital_gains_tax`, `medicare_surtax`,
`upfront_fee_percent`) are passed explicitly in a `Globals` record.
-/

/-- Is `c` one of the decimal digit characters. -/
def isDigitChar (c : Char) : Bool := decide ('0' ≤ c ∧ c ≤ '9')

/-- Numeric value of a most-significant-first list of digit characters. -/
def digitsToNat (l : List Char) : ℕ := l.foldl (fun acc c => 10 * acc + (c.toNat - 48)) 0

/-- The character for a decimal digit. -/
def digitChar (d : ℕ) : Char := Char.ofNat (48 + d)

/-- Fuel-driven base-10 digit extraction, least significant digit first. -/
def digitsRevAux : ℕ → ℕ → List ℕ
  | 0, _ => []
  | fuel + 1, n => if n = 0 then [] else n % 10 :: digitsRevAux fuel (n / 10)

/-- Base-10 digits of `n`, least significant first (empty for `0`). -/
def digitsRev (n : ℕ) : List ℕ := digitsRevAux n n

/-- Base-10 digits used for display, least significant first (`0` shows as one digit). -/
def natDigitsRepr (n : ℕ) : List ℕ := if n = 0 then [0] else digitsRev n

/-- Insert a thousands separator after every three characters of a
least-significant-first character list; `k` counts characters emitted
since the previous separator. -/
def commify : List Char → ℕ → List Char
  | [], _ => []
  | c :: cs, k => if k = 3 then ',' :: c :: commify cs 1 else c :: commify cs (k + 1)

/-- Characters kept by `dollar_str.replace("$", "").replace(",", "")`. -/
def keepChar (c : Char) : Bool := decide (c ≠ '$' ∧ c ≠ ',')

/-- Embeds the two `replace` calls of `parse_dollar_string`. -/
def stripSymbols (l : List Char) : List Char := l.filter keepChar

/-- Embeds Python `str.strip()`: remove leading and trailing whitespace. -/
def trimChars (l : List Char) : List Char :=
  ((l.dropWhile Char.isWhitespace).reverse.dropWhile Char.isWhitespace).reverse

/-- Pure part of parsing an unsigned decimal literal, as Python `float`
accepts it: digits, an optional dot, digits, with at least one digit.
Returns `(integer part, fraction digits value, fraction length)`. -/
def parseUnsignedParts (l : List Char) : Option (ℕ × ℕ × ℕ) :=
  let intPart := l.takeWhile isDigitChar
  match l.dropWhile isDigitChar with
  | [] => if intPart.isEmpty then none else some (digitsToNat intPart, 0, 0)
  | c :: fracPart =>
    if c = '.' ∧ fracPart.all isDigitChar ∧ (intPart ≠ [] ∨ fracPart ≠ []) then
      some (digitsToNat intPart, digitsToNat fracPart, fracPart.length)
    else none

/-- Pure part of parsing a signed decimal literal: an optional leading
sign followed by an unsigned decimal literal. -/
def parseSignedParts : List Char → Option (Bool × ℕ × ℕ × ℕ)
  | [] => none
  | c :: rest =>
    if c = '-' then (parseUnsignedParts rest).map (fun p => (true, p))
    else if c = '+' then (parseUnsignedParts rest).map (fun p => (false, p))
    else (parseUnsignedParts (c :: rest)).map (fun p => (false, p))

/-- Rational value of parsed sign/integer/fraction parts. -/
def ratOfParts (p : Bool × ℕ × ℕ × ℕ) : ℚ :=
  (if p.1 then -1 else 1) * ((p.2.1 : ℚ) + (p.2.2.1 : ℚ) / 10 ^ p.2.2.2)

/-- Embeds the finite plain-decimal fragment of Python `float(text)` on
already-cleaned text: `none` models the `ValueError` raised on
non-numeric residue. `float()`'s full grammar - special values, exponent
notation and underscore separators - is embedded by `pyFloatOfChars`
below; on the digit-and-dot inputs arising in this development the two
agree. -/
def parseFloat (l : List Char) : Option ℚ := (parseSignedParts l).map ratOfParts

/-- Embeds `parse_dollar_string` (src/invest.py lines 7-11): strip `$` and
`,`, strip surrounding whitespace, convert with `float`. -/
def parse_dollar_string (s : String) : Option ℚ :=
  parseFloat (trimChars (stripSymbols s.data))

/-- Rounding used by Python `format(x, ',.0f')`: round to the nearest
integer, ties to the even neighbour. -/
def roundHalfEven (q : ℚ) : ℤ :=
  if q - ⌊q⌋ < 1/2 then ⌊q⌋
  else if 1/2 < q - ⌊q⌋ then ⌊q⌋ + 1
  else if ⌊q⌋ % 2 = 0 then ⌊q⌋ else ⌊q⌋ + 1

/-- Thousands-separated decimal rendering of a natural number. -/
def formatNat (n : ℕ) : List Char := (commify ((natDigitsRepr n).map digitChar) 0).reverse

/-- Embeds `format_dollar_value` (src/invest.py lines 13-15), i.e.
`f"$\x7bamount:,.0f\x7d"`: a dollar sign followed by the amount rounded to
an integer with thousands separators and no decimal places. -/
def format_dollar_value (amount : ℚ) : String :=
  String.mk ('$' :: (if roundHalfEven amount < 0 then
    '-' :: formatNat (roundHalfEven amount).natAbs
  else
    formatNat (roundHalfEven amount).natAbs))

/-- Modelled from the spec: the pure front end of `parse_valuation`
(section 4.1), which is defined in repository variants that are not under
src/. It strips whitespace and commas and a leading currency symbol, then
performs the case-insensitive suffix check: trailing `B` selects multiplier
10^9, trailing `M` selects 10^6, otherwise the multiplier is 1 and the
whole remainder is the numeric text. Returns the numeric text and the
multiplier; `none` is the "no value provided" signal for empty input. -/
def valuationParts (s : String) : Option (List Char × ℕ) :=
  let cleaned := s.data.filter (fun c => !(c.isWhitespace || c == ','))
  let core := match cleaned with
    | '$' :: rest => rest
    | l => l
  match core.getLast? with
  | none => none
  | some c =>
    if c = 'B' ∨ c = 'b' then some (core.dropLast, 1000000000)
    else if c = 'M' ∨ c = 'm' then some (core.dropLast, 1000000)
    else some (core, 1)

/-- Modelled from the spec: `parse_valuation` (section 4.1), missing from
src/. The numeric prefix is parsed as a plain decimal number and scaled by
the suffix multiplier. -/
def parse_valuation (s : String) : Option ℚ :=
  match valuationParts s with
  | none => none
  | some (core, mult) => (parseFloat core).map (fun q => q * (mult : ℚ))

/-- Fixed rate from src/invest.py line 35, displayed but never used in the
return formula. -/
def upfront_fee_percent : ℚ := 2/100

/-- Fixed rate from src/invest.py line 36. -/
def preferred_return_rate : ℚ := 8/100

/-- Fixed rate from src/invest.py line 37. -/
def carry_percent : ℚ := 20/100

/-- Default slider value (percent) from src/invest.py line 23. -/
def default_capital_gains_tax : ℚ := 20

/-- Default slider value (percent) from src/invest.py line 24. -/
def default_medicare_surtax : ℚ := 38/10

/-- The module-level values read by the calculation functions: the three
fixed rates and the two slider-controlled tax rates (already divided by
100 as at src/invest.py lines 93-94). -/
structure Globals where
  upfront_fee_percent : ℚ
  preferred_return_rate : ℚ
  carry_percent : ℚ
  capital_gains_tax : ℚ
  medicare_surtax : ℚ

/-- The module state with every slider at its default. -/
def defaultGlobals : Globals :=
  ⟨upfront_fee_percent, preferred_return_rate, carry_percent,
    default_capital_gains_tax / 100, default_medicare_surtax / 100⟩

/-- Embeds `calculate_ownership` (src/invest.py lines 42-43); `none`
models the `ZeroDivisionError` raised when the post-money valuation is
zero. -/
def calculate_ownership (investment post_money_valuation : ℚ) : Option ℚ :=
  if post_money_valuation = 0 then none else some (investment / post_money_valuation)

/-- Embeds `calculate_final_value` (src/invest.py lines 45-46). -/
def calculate_final_value (ownership valuation_2028 : ℚ) : ℚ := ownership * valuation_2028

/-- Embeds `calculate_preferred_return` (src/invest.py lines 48-49). -/
def calculate_preferred_return (investment : ℚ) (time_horizon : ℕ) (pref_rate : ℚ) : ℚ :=
  investment * (1 + pref_rate) ^ time_horizon

/-- Embeds `calculate_gp_carry` (src/invest.py lines 51-53). -/
def calculate_gp_carry (final_value preferred_return carry_rate : ℚ) : ℚ :=
  max 0 ((final_value - preferred_return) * carry_rate)

/-- Embeds `calculate_taxes` (src/invest.py lines 55-57). -/
def calculate_taxes (investor_value initial_investment cap_gains_rate medicare_rate : ℚ) : ℚ :=
  max 0 ((investor_value - initial_investment) * (cap_gains_rate + medicare_rate))

/-- Embeds `calculate_after_tax_return` (src/invest.py lines 59-67). The
module-level rates the body reads are supplied through `g`. -/
def calculate_after_tax_return (g : Globals) (investment valuation : ℚ) (time_horizon : ℕ)
    (pre_money_valuation capital_raised : ℚ) : Option ℚ :=
  (calculate_ownership investment (pre_money_valuation + capital_raised)).map (fun ownership =>
    let final_value := calculate_final_value ownership valuation
    let pref_return := calculate_preferred_return investment time_horizon g.preferred_return_rate
    let gp_carry := calculate_gp_carry final_value pref_return g.carry_percent
    let investor_value := final_value - pref_return - gp_carry
    let total_taxes := calculate_taxes investor_value investment g.capital_gains_tax g.medicare_surtax
    investor_value - total_taxes)

/-- The rendering applied to the headline "Your return" figure at
src/invest.py line 134. -/
def headline_formatted (after_tax_return : ℚ) : String := format_dollar_value after_tax_return

/-- The rendering applied to each comparison-table entry at
src/invest.py line 151. -/
def table_formatted (v : ℚ) : String := format_dollar_value v

/-- The value space of Python `float(text)`: a finite value (embedded
exactly as a rational), one of the two infinities, or NaN. -/
inductive PyFloat where
  | finite (val : ℚ) : PyFloat
  | posInf : PyFloat
  | negInf : PyFloat
  | nan : PyFloat
deriving DecidableEq

/-- Python `x >= 0` on a float result: false for NaN and -inf. -/
def PyFloat.isNonneg : PyFloat → Bool
  | PyFloat.finite q => decide (0 ≤ q)
  | PyFloat.posInf => true
  | PyFloat.negInf => false
  | PyFloat.nan => false

/-- Python `x < 0` on a float result: false for NaN and +inf. -/
def PyFloat.isNeg : PyFloat → Bool
  | PyFloat.finite q => decide (q < 0)
  | PyFloat.posInf => false
  | PyFloat.negInf => true
  | PyFloat.nan => false

/-- Whether a (pre-stripped) `float()` argument starts with a minus sign. -/
def pyNegSign : List Char → Bool
  | [] => false
  | c :: _ => c == '-'

/-- A (pre-stripped) `float()` argument with its optional leading sign
removed. -/
def pyBody : List Char → List Char
  | [] => []
  | c :: t => if c == '-' || c == '+' then t else c :: t

/-- ASCII lowercasing, for `float()`'s case-insensitive keywords. -/
def lowerChar (c : Char) : Char :=
  if 'A' ≤ c ∧ c ≤ 'Z' then Char.ofNat (c.toNat + 32) else c

/-- Is the text (case-insensitively) `inf` or `infinity`. -/
def isInfStr (l : List Char) : Bool :=
  (l.map lowerChar == ['i', 'n', 'f']) ||
    (l.map lowerChar == ['i', 'n', 'f', 'i', 'n', 'i', 't', 'y'])

/-- Is the text (case-insensitively) `nan`. -/
def isNanStr (l : List Char) : Bool := l.map lowerChar == ['n', 'a', 'n']

/-- A valid `digitpart` of Python's float grammar with PEP 515
underscores: nonempty, only digits and underscores, starting and ending
with a digit, and with no two adjacent underscores. -/
def validDigitRun (l : List Char) : Bool :=
  !l.isEmpty && l.all (fun c => isDigitChar c || c == '_') &&
  (match l.head? with | some c => isDigitChar c | none => false) &&
  (match l.getLast? with | some c => isDigitChar c | none => false) &&
  ((l.zip l.tail).all (fun p => !(p.1 == '_' && p.2 == '_')))

/-- Numeric value of a digit run, ignoring underscore separators. -/
def runVal (l : List Char) : ℕ := digitsToNat (l.filter isDigitChar)

/-- Number of digits of a digit run, ignoring underscore separators. -/
def runLen (l : List Char) : ℕ := (l.filter isDigitChar).length

/-- The pure parts of an unsigned decimal `float()` literal:
integer-part value, fraction-part value and digit count, and the
exponent's sign and value. -/
structure PyDecParts where
  intVal : ℕ
  fracVal : ℕ
  fracLen : ℕ
  expNeg : Bool
  expVal : ℕ
deriving DecidableEq

/-- Pure part of parsing an unsigned decimal literal of `float()`'s full
grammar: `digitpart? (. digitpart?)? ((e|E) sign? digitpart)?` with at
least one mantissa digit and PEP 515 underscores. -/
def pyDecimalParts (l : List Char) : Option PyDecParts :=
  let mantissa := l.takeWhile (fun c => !(c == 'e' || c == 'E'))
  let expPart := l.dropWhile (fun c => !(c == 'e' || c == 'E'))
  let ip := mantissa.takeWhile (fun c => !(c == '.'))
  let fracTail := mantissa.dropWhile (fun c => !(c == '.'))
  let fp := fracTail.tail
  let mOk : Bool :=
    if fracTail.isEmpty then validDigitRun ip
    else (ip.isEmpty || validDigitRun ip) && (fp.isEmpty || validDigitRun fp) &&
      !(ip.isEmpty && fp.isEmpty)
  if mOk then
    if expPart.isEmpty then some ⟨runVal ip, runVal fp, runLen fp, false, 0⟩
    else
      let er := expPart.tail
      let ed := pyBody er
      if validDigitRun ed then
        some ⟨runVal ip, runVal fp, runLen fp, pyNegSign er, runVal ed⟩
      else none
  else none

/-- Exact rational value of the parsed parts of an unsigned decimal
literal. -/
def ratOfPyDec (p : PyDecParts) : ℚ :=
  if p.expNeg then ((p.intVal : ℚ) + (p.fracVal : ℚ) / 10 ^ p.fracLen) / 10 ^ p.expVal
  else ((p.intVal : ℚ) + (p.fracVal : ℚ) / 10 ^ p.fracLen) * 10 ^ p.expVal

/-- Embeds Python `float(text)` on already-stripped text in full: an
optional sign followed by (case-insensitively) `inf`, `infinity`, `nan`,
or a decimal literal with optional fraction, exponent and underscore
separators; `none` models the `ValueError` on anything else. -/
def pyFloatOfChars (l : List Char) : Option PyFloat :=
  if isInfStr (pyBody l) then
    some (if pyNegSign l then PyFloat.negInf else PyFloat.posInf)
  else if isNanStr (pyBody l) then some PyFloat.nan
  else
    (pyDecimalParts (pyBody l)).map (fun p =>
      PyFloat.finite (if pyNegSign l then -(ratOfPyDec p) else ratOfPyDec p))

/-- Embeds `parse_dollar_string` (src/invest.py lines 7-11) with
`float()`'s complete accepted grammar, special values included: strip `$`
and `,`, strip surrounding whitespace, convert with `float`. -/
def parse_dollar_string_py (s : String) : Option PyFloat :=
  pyFloatOfChars (trimChars (stripSymbols s.data))

theorem digitsRevAux_eq_digits : ∀ fuel n, n ≤ fuel → digitsRevAux fuel n = Nat.digits 10 n := by
  intro fuel
  induction fuel with
  | zero =>
    intro n hn
    interval_cases n
    simp [digitsRevAux]
  | succ f ih =>
    intro n hn
    by_cases h : n = 0
    · subst h
      simp [digitsRevAux]
    · have hlt : n / 10 < n := Nat.div_lt_self (Nat.pos_of_ne_zero h) (by norm_num)
      have hle : n / 10 ≤ f := by omega
      show (if n = 0 then [] else n % 10 :: digitsRevAux f (n / 10)) = Nat.digits 10 n
      rw [if_neg h, Nat.digits_def' (b := 10) (by norm_num) (Nat.pos_of_ne_zero h), ih (n / 10) hle]

theorem digitsRev_eq (n : ℕ) : digitsRev n = Nat.digits 10 n :=
  digitsRevAux_eq_digits n n le_rfl

theorem natDigitsRepr_lt (n : ℕ) : ∀ d ∈ natDigitsRepr n, d < 10 := by
  intro d hd
  unfold natDigitsRepr at hd
  by_cases h : n = 0
  · rw [if_pos h] at hd
    simp at hd
    omega
  · rw [if_neg h, digitsRev_eq] at hd
    exact Nat.digits_lt_base (by norm_num) hd

theorem natDigitsRepr_ne_nil (n : ℕ) : natDigitsRepr n ≠ [] := by
  unfold natDigitsRepr
  by_cases h : n = 0
  · rw [if_pos h]
    simp
  · rw [if_neg h, digitsRev_eq]
    simp [Nat.digits_ne_nil_iff_ne_zero, h]

theorem ofDigits_natDigitsRepr (n : ℕ) : Nat.ofDigits 10 (natDigitsRepr n) = n := by
  unfold natDigitsRepr
  by_cases h : n = 0
  · rw [if_pos h]
    simp [Nat.ofDigits, h]
  · rw [if_neg h, digitsRev_eq, Nat.ofDigits_digits]

theorem digitChar_facts (d : ℕ) (hd : d < 10) :
    (digitChar d).toNat = 48 + d ∧ isDigitChar (digitChar d) = true ∧
    keepChar (digitChar d) = true ∧ digitChar d ≠ '-' ∧ digitChar d ≠ '+' ∧
    (digitChar d).isWhitespace = false := by
  interval_cases d <;> exact (by decide)

theorem foldl_digitChars (lsd : List ℕ) (h : ∀ d ∈ lsd, d < 10) (a : ℕ) :
    List.foldl (fun acc c => 10 * acc + (c.toNat - 48)) a ((lsd.map digitChar).reverse)
      = a * 10 ^ lsd.length + Nat.ofDigits 10 lsd := by
  induction lsd generalizing a with
  | nil => simp [Nat.ofDigits]
  | cons d rest ih =>
    have hd : d < 10 := h d (List.mem_cons_self d rest)
    have hrest : ∀ x ∈ rest, x < 10 := fun x hx => h x (List.mem_cons_of_mem d hx)
    have htoNat : (digitChar d).toNat = 48 + d := (digitChar_facts d hd).1
    simp only [List.map_cons, List.reverse_cons, List.foldl_append, List.foldl_cons,
      List.foldl_nil, ih hrest, Nat.ofDigits_cons, htoNat, List.length_cons]
    have h48 : 48 + d - 48 = d := by omega
    rw [h48]
    ring

theorem stripSymbols_cons_of_false {c : Char} (h : keepChar c = false) (l : List Char) :
    stripSymbols (c :: l) = stripSymbols l := by
  simp [stripSymbols, List.filter_cons, h]

theorem stripSymbols_reverse (l : List Char) : stripSymbols l.reverse = (stripSymbols l).reverse := by
  simp [stripSymbols, List.filter_reverse]

theorem stripSymbols_commify :
    ∀ l : List Char, (∀ c ∈ l, keepChar c = true) → ∀ k, stripSymbols (commify l k) = l := by
  intro l
  induction l with
  | nil =>
    intro _ k
    rfl
  | cons c cs ih =>
    intro hl k
    have hc : keepChar c = true := hl c (List.mem_cons_self c cs)
    have hcs : ∀ x ∈ cs, keepChar x = true := fun x hx => hl x (List.mem_cons_of_mem c hx)
    have hcomma : keepChar ',' = false := rfl
    by_cases hk : k = 3
    · have h1 : commify (c :: cs) k = ',' :: c :: commify cs 1 := by
        show (if k = 3 then ',' :: c :: commify cs 1 else c :: commify cs (k + 1)) = _
        rw [if_pos hk]
      rw [h1, stripSymbols_cons_of_false hcomma]
      simp [stripSymbols, List.filter_cons, hc]
      exact ih hcs 1
    · have h1 : commify (c :: cs) k = c :: commify cs (k + 1) := by
        show (if k = 3 then ',' :: c :: commify cs 1 else c :: commify cs (k + 1)) = _
        rw [if_neg hk]
      rw [h1]
      simp [stripSymbols, List.filter_cons, hc]
      exact ih hcs (k + 1)

theorem dropWhile_eq_self_of_head (p : Char → Bool) (l : List Char)
    (h : ∀ c ∈ l, p c = false) : l.dropWhile p = l := by
  cases l with
  | nil => rfl
  | cons a t => simp [List.dropWhile_cons, h a (List.mem_cons_self a t)]

theorem trimChars_eq_self (l : List Char) (h : ∀ c ∈ l, c.isWhitespace = false) :
    trimChars l = l := by
  unfold trimChars
  rw [dropWhile_eq_self_of_head _ l h,
    dropWhile_eq_self_of_head _ l.reverse (fun c hc => h c (List.mem_reverse.mp hc)),
    List.reverse_reverse]

theorem takeWhile_eq_self_of_all (p : Char → Bool) :
    ∀ l : List Char, (∀ c ∈ l, p c = true) → l.takeWhile p = l := by
  intro l
  induction l with
  | nil => intro _; rfl
  | cons a t ih =>
    intro h
    simp [List.takeWhile_cons, h a (List.mem_cons_self a t),
      ih (fun c hc => h c (List.mem_cons_of_mem a hc))]

theorem dropWhile_eq_nil_of_all (p : Char → Bool) :
    ∀ l : List Char, (∀ c ∈ l, p c = true) → l.dropWhile p = [] := by
  intro l
  induction l with
  | nil => intro _; rfl
  | cons a t ih =>
    intro h
    simp [List.dropWhile_cons, h a (List.mem_cons_self a t),
      ih (fun c hc => h c (List.mem_cons_of_mem a hc))]

theorem parseUnsignedParts_digits (l : List Char) (hne : l ≠ [])
    (h : ∀ c ∈ l, isDigitChar c = true) :
    parseUnsignedParts l = some (digitsToNat l, 0, 0) := by
  have hempty : l.isEmpty = false := by
    cases l with
    | nil => exact absurd rfl hne
    | cons a t => rfl
  unfold parseUnsignedParts
  rw [dropWhile_eq_nil_of_all _ l h, takeWhile_eq_self_of_all _ l h]
  simp [hempty]

theorem parseSignedParts_digits (l : List Char) (hne : l ≠ [])
    (h : ∀ c ∈ l, isDigitChar c = true) :
    parseSignedParts l = some (false, digitsToNat l, 0, 0) := by
  cases l with
  | nil => exact absurd rfl hne
  | cons c rest =>
    have hc : isDigitChar c = true := h c (List.mem_cons_self c rest)
    have hcm : c ≠ '-' := by
      intro e
      rw [e] at hc
      exact absurd hc (by decide)
    have hcp : c ≠ '+' := by
      intro e
      rw [e] at hc
      exact absurd hc (by decide)
    show (if c = '-' then (parseUnsignedParts rest).map (fun p => (true, p))
      else if c = '+' then (parseUnsignedParts rest).map (fun p => (false, p))
      else (parseUnsignedParts (c :: rest)).map (fun p => (false, p))) = _
    rw [if_neg hcm, if_neg hcp, parseUnsignedParts_digits _ (by simp) h]
    rfl

theorem parseFloat_eval (l : List Char) (p : Bool × ℕ × ℕ × ℕ)
    (h : parseSignedParts l = some p) : parseFloat l = some (ratOfParts p) := by
  unfold parseFloat
  rw [h]
  rfl

theorem parseFloat_digits (l : List Char) (hne : l ≠ [])
    (h : ∀ c ∈ l, isDigitChar c = true) :
    parseFloat l = some ((digitsToNat l : ℚ)) := by
  rw [parseFloat_eval l _ (parseSignedParts_digits l hne h)]
  simp [ratOfParts]

/-- C7: parser/formatter round trip. For every nonnegative integer-valued
amount `n`, parsing the no-decimals display of `n` produced by
`format_dollar_value` with `parse_dollar_string` recovers exactly `n`
(which equals `round n` since `n` is an integer). -/
theorem C7_parse_format_roundtrip (n : ℕ) :
    parse_dollar_string (format_dollar_value (n : ℚ)) = some (n : ℚ) := by
  have hround : roundHalfEven (n : ℚ) = (n : ℤ) := by
    unfold roundHalfEven
    rw [Int.floor_natCast]
    have h0 : (n : ℚ) - ((n : ℤ) : ℚ) = 0 := by
      push_cast
      ring
    rw [h0]
    norm_num
  have hneg : ¬ ((n : ℤ) < 0) := not_lt.mpr (Int.natCast_nonneg n)
  have habs : ((n : ℤ)).natAbs = n := Int.natAbs_ofNat n
  have hformat : format_dollar_value (n : ℚ) = String.mk ('$' :: formatNat n) := by
    unfold format_dollar_value
    rw [hround, if_neg hneg, habs]
  rw [hformat]
  have hmem : ∀ c ∈ (natDigitsRepr n).map digitChar,
      isDigitChar c = true ∧ keepChar c = true ∧ c.isWhitespace = false := by
    intro c hc
    obtain ⟨d, hdmem, rfl⟩ := List.mem_map.mp hc
    have hd : d < 10 := natDigitsRepr_lt n d hdmem
    obtain ⟨_, h2, h3, _, _, h6⟩ := digitChar_facts d hd
    exact ⟨h2, h3, h6⟩
  have hstrip : stripSymbols ('$' :: formatNat n)
      = ((natDigitsRepr n).map digitChar).reverse := by
    rw [stripSymbols_cons_of_false (rfl : keepChar '$' = false)]
    show stripSymbols ((commify ((natDigitsRepr n).map digitChar) 0).reverse) = _
    rw [stripSymbols_reverse,
      stripSymbols_commify _ (fun c hc => (hmem c hc).2.1) 0]
  have htrim : trimChars (((natDigitsRepr n).map digitChar).reverse)
      = ((natDigitsRepr n).map digitChar).reverse :=
    trimChars_eq_self _ (fun c hc => (hmem c (List.mem_reverse.mp hc)).2.2)
  have hrevne : ((natDigitsRepr n).map digitChar).reverse ≠ [] := by
    simp [natDigitsRepr_ne_nil n]
  have hval : digitsToNat (((natDigitsRepr n).map digitChar).reverse) = n := by
    unfold digitsToNat
    rw [foldl_digitChars (natDigitsRepr n) (natDigitsRepr_lt n) 0,
      ofDigits_natDigitsRepr]
    simp
  show parseFloat (trimChars (stripSymbols ('$' :: formatNat n))) = some (n : ℚ)
  rw [hstrip, htrim,
    parseFloat_digits _ hrevne (fun c hc => (hmem c (List.mem_reverse.mp hc)).1), hval]

/-- C4: for every final value, preferred return and carry rate in the unit
interval, `calculate_gp_carry` is never negative, and it is zero whenever
the final value does not exceed the preferred return. -/
theorem C4_gp_carry_nonneg_zero (final_value preferred_return c : ℚ)
    (h0 : 0 ≤ c) (h1 : c ≤ 1) :
    0 ≤ calculate_gp_carry final_value preferred_return c ∧
    (final_value ≤ preferred_return → calculate_gp_carry final_value preferred_return c = 0) := by
  constructor
  · exact le_max_left 0 _
  · intro hle
    unfold calculate_gp_carry
    exact max_eq_left (mul_nonpos_iff.mpr (Or.inr ⟨sub_nonpos.mpr hle, h0⟩))

theorem C4_gp_carry_nonneg_zero_witness :
    0 ≤ calculate_gp_carry 1 2 (1/2) ∧
    ((1 : ℚ) ≤ 2 → calculate_gp_carry 1 2 (1/2) = 0) :=
  C4_gp_carry_nonneg_zero 1 2 (1/2) (by norm_num) (by norm_num)

/-- C5: for every investor value, initial investment, and nonnegative tax
rates, `calculate_taxes` is never negative, and it is zero whenever the
pre-tax investor value does not exceed the original investment. -/
theorem C5_taxes_nonneg_zero (investor_value investment cg med : ℚ)
    (hcg : 0 ≤ cg) (hmed : 0 ≤ med) :
    0 ≤ calculate_taxes investor_value investment cg med ∧
    (investor_value ≤ investment → calculate_taxes investor_value investment cg med = 0) := by
  constructor
  · exact le_max_left 0 _
  · intro hle
    unfold calculate_taxes
    exact max_eq_left (mul_nonpos_iff.mpr (Or.inr ⟨sub_nonpos.mpr hle, add_nonneg hcg hmed⟩))

theorem C5_taxes_nonneg_zero_witness :
    0 ≤ calculate_taxes 5 9 (20/100) (38/1000) ∧
    ((5 : ℚ) ≤ 9 → calculate_taxes 5 9 (20/100) (38/1000) = 0) :=
  C5_taxes_nonneg_zero 5 9 (20/100) (38/1000) (by norm_num) (by norm_num)

/-- C9: noninterference of the unused fee field. Two module states that
agree on the four rates the return formula reads may differ arbitrarily in
`upfront_fee_percent` without changing the computed after-tax return:
the fee is never applied in `calculate_after_tax_return`. -/
theorem C9_upfront_fee_noninterference (g1 g2 : Globals)
    (investment valuation : ℚ) (T : ℕ) (pmv cr : ℚ)
    (h1 : g1.preferred_return_rate = g2.preferred_return_rate)
    (h2 : g1.carry_percent = g2.carry_percent)
    (h3 : g1.capital_gains_tax = g2.capital_gains_tax)
    (h4 : g1.medicare_surtax = g2.medicare_surtax) :
    calculate_after_tax_return g1 investment valuation T pmv cr
      = calculate_after_tax_return g2 investment valuation T pmv cr := by
  unfold calculate_after_tax_return
  rw [h1, h2, h3, h4]

theorem C9_upfront_fee_noninterference_witness :
    calculate_after_tax_return ⟨2/100, 8/100, 20/100, 20/100, 38/1000⟩
        25000000 36000000000 5 250000000 53000000
      = calculate_after_tax_return ⟨1/2, 8/100, 20/100, 20/100, 38/1000⟩
        25000000 36000000000 5 250000000 53000000 :=
  C9_upfront_fee_noninterference _ _ _ _ _ _ _ rfl rfl rfl rfl

theorem clamp_step_mono (a r x y : ℚ) (hr0 : 0 ≤ r) (hr1 : r ≤ 1) (hxy : x ≤ y) :
    x - max 0 ((x - a) * r) ≤ y - max 0 ((y - a) * r) := by
  have hmul : (x - a) * r ≤ (y - a) * r :=
    mul_le_mul_of_nonneg_right (sub_le_sub_right hxy a) hr0
  rcases le_or_lt ((x - a) * r) 0 with hx | hx
  · rcases le_or_lt ((y - a) * r) 0 with hy | hy
    · rw [max_eq_left hx, max_eq_left hy]
      linarith
    · rw [max_eq_left hx, max_eq_right hy.le]
      rcases eq_or_lt_of_le hr0 with hr | hr
      · rw [← hr] at hy
        simp at hy
      · have hxa : x ≤ a := by
          by_contra hpos
          push_neg at hpos
          nlinarith [mul_pos (sub_pos.mpr hpos) hr]
        have hya : a ≤ y := by
          by_contra hneg
          push_neg at hneg
          nlinarith [mul_neg_of_neg_of_pos (sub_neg.mpr hneg) hr]
        nlinarith [mul_nonneg (sub_nonneg.mpr hya) (sub_nonneg.mpr hr1)]
  · rw [max_eq_right hx.le, max_eq_right (hx.le.trans hmul)]
    nlinarith [mul_nonneg (sub_nonneg.mpr hxy) (sub_nonneg.mpr hr1)]

/-- C10: monotonicity of the after-tax return in the target valuation.
For positive investment, positive post-money valuation, a carry rate in
the unit interval and a combined tax rate in the unit interval, a larger
target valuation never produces a smaller after-tax return: both the
carry clamp and the tax clamp preserve monotonicity. -/
theorem C10_after_tax_return_monotone (g : Globals) (investment v1 v2 : ℚ) (T : ℕ)
    (pmv cr r1 r2 : ℚ)
    (hinv : 0 < investment) (hpm : 0 < pmv + cr)
    (hc0 : 0 ≤ g.carry_percent) (hc1 : g.carry_percent ≤ 1)
    (ht0 : 0 ≤ g.capital_gains_tax + g.medicare_surtax)
    (ht1 : g.capital_gains_tax + g.medicare_surtax ≤ 1)
    (hv : v1 ≤ v2)
    (h1 : calculate_after_tax_return g investment v1 T pmv cr = some r1)
    (h2 : calculate_after_tax_return g investment v2 T pmv cr = some r2) :
    r1 ≤ r2 := by
  have hne : pmv + cr ≠ 0 := ne_of_gt hpm
  unfold calculate_after_tax_return calculate_ownership at h1 h2
  rw [if_neg hne] at h1 h2
  simp only [Option.map_some', Option.some.injEq, calculate_final_value,
    calculate_gp_carry, calculate_taxes] at h1 h2
  have hw0 : 0 ≤ investment / (pmv + cr) := le_of_lt (div_pos hinv hpm)
  have hfin : investment / (pmv + cr) * v1 ≤ investment / (pmv + cr) * v2 :=
    mul_le_mul_of_nonneg_left hv hw0
  have hp : investment / (pmv + cr) * v1
        - calculate_preferred_return investment T g.preferred_return_rate
      ≤ investment / (pmv + cr) * v2
        - calculate_preferred_return investment T g.preferred_return_rate :=
    sub_le_sub_right hfin _
  have hiv := clamp_step_mono 0 g.carry_percent _ _ hc0 hc1 hp
  rw [sub_zero, sub_zero] at hiv
  have hfinal := clamp_step_mono investment
    (g.capital_gains_tax + g.medicare_surtax) _ _ ht0 ht1 hiv
  rw [← h1, ← h2]
  exact hfinal

theorem C10_after_tax_return_monotone_witness : (0 : ℚ) ≤ 80 := by
  have hg1 : calculate_after_tax_return defaultGlobals 100 100 0 50 50 = some 0 := by
    unfold calculate_after_tax_return calculate_ownership
    rw [if_neg (by norm_num : ¬((50 : ℚ) + 50 = 0))]
    norm_num [calculate_final_value, calculate_preferred_return, calculate_gp_carry,
      calculate_taxes, defaultGlobals, preferred_return_rate, carry_percent,
      default_capital_gains_tax, default_medicare_surtax, max_def]
  have hg2 : calculate_after_tax_return defaultGlobals 100 200 0 50 50 = some 80 := by
    unfold calculate_after_tax_return calculate_ownership
    rw [if_neg (by norm_num : ¬((50 : ℚ) + 50 = 0))]
    norm_num [calculate_final_value, calculate_preferred_return, calculate_gp_carry,
      calculate_taxes, defaultGlobals, preferred_return_rate, carry_percent,
      default_capital_gains_tax, default_medicare_surtax, max_def]
  exact C10_after_tax_return_monotone defaultGlobals 100 100 200 0 50 50 0 80
    (by norm_num)
    (by norm_num)
    (by norm_num [defaultGlobals, carry_percent])
    (by norm_num [defaultGlobals, carry_percent])
    (by norm_num [defaultGlobals, default_capital_gains_tax, default_medicare_surtax])
    (by norm_num [defaultGlobals, default_capital_gains_tax, default_medicare_surtax])
    (by norm_num) hg1 hg2

/-- C3: the code has no guard for a non-positive post-money valuation and
never signals an `InvalidDealTermsError`. With pre-money = -100 and
capital raised = 50 the post-money valuation is -50 < 0, yet
`calculate_after_tax_return` silently divides and returns a value instead
of blocking the computation. -/
theorem C3_no_guard_on_negative_post_money :
    ((-100 : ℚ) + 50 < 0) ∧
    calculate_after_tax_return defaultGlobals 1000 100 1 (-100) 50 = some (-3080) := by
  constructor
  · norm_num
  · unfold calculate_after_tax_return calculate_ownership
    rw [if_neg (by norm_num : ¬((-100 : ℚ) + 50 = 0))]
    norm_num [calculate_final_value, calculate_preferred_return, calculate_gp_carry,
      calculate_taxes, defaultGlobals, preferred_return_rate, carry_percent,
      default_capital_gains_tax, default_medicare_surtax, max_def]

/-- C1 counterexample: at the spec's worked scenario the after-tax return
computed by the code is 2831551585172912/1578125 ≈ 1,794,250,509.5, which
exceeds the claimed value 1,794,050,516 by more than 199,000 dollars, so
the claim's figure (and its intermediate taxes ≈ 552,800,817) does not
match the code. -/
theorem C1_scenario_counterexample :
    calculate_after_tax_return defaultGlobals 25000000 36000000000 5 250000000 53000000
      = some (2831551585172912/1578125) ∧
    (1794050516 : ℚ) + 199000 < 2831551585172912/1578125 := by
  constructor
  · unfold calculate_after_tax_return calculate_ownership
    rw [if_neg (by norm_num : ¬((250000000 : ℚ) + 53000000 = 0))]
    norm_num [calculate_final_value, calculate_preferred_return, calculate_gp_carry,
      calculate_taxes, defaultGlobals, preferred_return_rate, carry_percent,
      default_capital_gains_tax, default_medicare_surtax, max_def]
  · norm_num

/-- C1 as amended: at the worked scenario the code computes post-money
303,000,000, preferred return 36,733,201.92, GP carry
7407248665152/12625 ≈ 586,712,765.95, taxes
872072747403088/1578125 ≈ 552,600,552.9, and after-tax return
2831551585172912/1578125 ≈ 1,794,250,509.5. -/
theorem C1_scenario_exact_value :
    (250000000 : ℚ) + 53000000 = 303000000 ∧
    calculate_preferred_return 25000000 5 preferred_return_rate = 3673320192/100 ∧
    calculate_gp_carry (calculate_final_value (25000000/303000000) 36000000000)
      (3673320192/100) carry_percent = 7407248665152/12625 ∧
    (586712765 : ℚ) < 7407248665152/12625 ∧ (7407248665152 : ℚ)/12625 < 586712766 ∧
    calculate_taxes (calculate_final_value (25000000/303000000) 36000000000
        - 3673320192/100 - 7407248665152/12625) 25000000 (20/100) (38/1000)
      = 872072747403088/1578125 ∧
    (552600552 : ℚ) < 872072747403088/1578125 ∧
    (872072747403088 : ℚ)/1578125 < 552600553 ∧
    calculate_after_tax_return defaultGlobals 25000000 36000000000 5 250000000 53000000
      = some (2831551585172912/1578125) ∧
    (1794250509 : ℚ) < 2831551585172912/1578125 ∧
    (2831551585172912 : ℚ)/1578125 < 1794250510 := by
  refine ⟨by norm_num, ?_, ?_, by norm_num, by norm_num, ?_, by norm_num, by norm_num,
    ?_, by norm_num, by norm_num⟩
  · norm_num [calculate_preferred_return, preferred_return_rate]
  · norm_num [calculate_gp_carry, calculate_final_value, carry_percent, max_def]
  · norm_num [calculate_taxes, calculate_final_value, max_def]
  · unfold calculate_after_tax_return calculate_ownership
    rw [if_neg (by norm_num : ¬((250000000 : ℚ) + 53000000 = 0))]
    norm_num [calculate_final_value, calculate_preferred_return, calculate_gp_carry,
      calculate_taxes, defaultGlobals, preferred_return_rate, carry_percent,
      default_capital_gains_tax, default_medicare_surtax, max_def]

/-- C2: the valuation parser's case-insensitive suffix check. A trailing
`B` (or `b`) multiplies the numeric prefix by 10^9, a trailing `M` (or
`m`) multiplies it by 10^6, and with no suffix the remainder parses as a
plain number, so `parse_valuation "1B" = 10^9`,
`parse_valuation "2.5M" = 2.5 * 10^6` and
`parse_valuation "$1,000,000" = 10^6`. -/
theorem C2_parse_valuation_suffix :
    parse_valuation "1B" = some 1000000000 ∧
    parse_valuation "2.5M" = some 2500000 ∧
    parse_valuation "$1,000,000" = some 1000000 ∧
    parse_valuation "1b" = some 1000000000 ∧
    parse_valuation "2.5m" = some 2500000 := by
  refine ⟨?_, ?_, ?_, ?_, ?_⟩
  · unfold parse_valuation
    rw [show valuationParts "1B" = some (['1'], 1000000000) from by decide]
    show Option.map (fun q => q * ((1000000000 : ℕ) : ℚ)) (parseFloat ['1'])
      = some 1000000000
    rw [parseFloat_eval ['1'] (false, 1, 0, 0) (by decide)]
    norm_num [ratOfParts]
  · unfold parse_valuation
    rw [show valuationParts "2.5M" = some (['2', '.', '5'], 1000000) from by decide]
    show Option.map (fun q => q * ((1000000 : ℕ) : ℚ)) (parseFloat ['2', '.', '5'])
      = some 2500000
    rw [parseFloat_eval ['2', '.', '5'] (false, 2, 5, 1) (by decide)]
    norm_num [ratOfParts]
  · unfold parse_valuation
    rw [show valuationParts "$1,000,000" = some (['1', '0', '0', '0', '0', '0', '0'], 1)
        from by decide]
    show Option.map (fun q => q * ((1 : ℕ) : ℚ))
      (parseFloat ['1', '0', '0', '0', '0', '0', '0']) = some 1000000
    rw [parseFloat_eval ['1', '0', '0', '0', '0', '0', '0'] (false, 1000000, 0, 0) (by decide)]
    norm_num [ratOfParts]
  · unfold parse_valuation
    rw [show valuationParts "1b" = some (['1'], 1000000000) from by decide]
    show Option.map (fun q => q * ((1000000000 : ℕ) : ℚ)) (parseFloat ['1'])
      = some 1000000000
    rw [parseFloat_eval ['1'] (false, 1, 0, 0) (by decide)]
    norm_num [ratOfParts]
  · unfold parse_valuation
    rw [show valuationParts "2.5m" = some (['2', '.', '5'], 1000000) from by decide]
    show Option.map (fun q => q * ((1000000 : ℕ) : ℚ)) (parseFloat ['2', '.', '5'])
      = some 2500000
    rw [parseFloat_eval ['2', '.', '5'] (false, 2, 5, 1) (by decide)]
    norm_num [ratOfParts]

/-- C8 counterexample: the parser does not return a non-negative money
value on every accepted input. It accepts "-5" and returns the negative
value -5, and it accepts "nan" (an input with no minus sign) and returns
NaN, which is not a non-negative value. -/
theorem C8_negative_parse_counterexample :
    parse_dollar_string_py "-5" = some (PyFloat.finite (-5)) ∧
    (PyFloat.finite (-5 : ℚ)).isNonneg = false ∧
    parse_dollar_string_py "nan" = some PyFloat.nan ∧
    PyFloat.nan.isNonneg = false ∧
    parse_dollar_string "-5" = some (-5) ∧ ((-5 : ℚ) < 0) := by
  refine ⟨?_, ?_, ?_, rfl, ?_, by norm_num⟩
  · unfold parse_dollar_string_py
    rw [show trimChars (stripSymbols ("-5".data)) = ['-', '5'] from by decide]
    unfold pyFloatOfChars
    rw [if_neg (by decide : ¬(isInfStr (pyBody ['-', '5']) = true)),
      if_neg (by decide : ¬(isNanStr (pyBody ['-', '5']) = true)),
      show pyDecimalParts (pyBody ['-', '5']) = some ⟨5, 0, 0, false, 0⟩ from by decide]
    show some (PyFloat.finite (if pyNegSign ['-', '5'] then
        -(ratOfPyDec ⟨5, 0, 0, false, 0⟩) else ratOfPyDec ⟨5, 0, 0, false, 0⟩))
      = some (PyFloat.finite (-5))
    rw [show pyNegSign ['-', '5'] = true from rfl]
    norm_num [ratOfPyDec]
  · show decide ((0 : ℚ) ≤ -5) = false
    exact decide_eq_false (by norm_num)
  · unfold parse_dollar_string_py
    rw [show trimChars (stripSymbols ("nan".data)) = ['n', 'a', 'n'] from by decide]
    unfold pyFloatOfChars
    rw [if_neg (by decide : ¬(isInfStr (pyBody ['n', 'a', 'n']) = true)),
      if_pos (by decide : isNanStr (pyBody ['n', 'a', 'n']) = true)]
  · unfold parse_dollar_string
    rw [show trimChars (stripSymbols ("-5".data)) = ['-', '5'] from by decide,
      parseFloat_eval ['-', '5'] (true, 5, 0, 0) (by decide)]
    norm_num [ratOfParts]

theorem mem_of_mem_trimChars {c : Char} {l : List Char} (h : c ∈ trimChars l) : c ∈ l := by
  unfold trimChars at h
  rw [List.mem_reverse] at h
  have h2 := (List.dropWhile_sublist Char.isWhitespace).subset h
  rw [List.mem_reverse] at h2
  exact (List.dropWhile_sublist Char.isWhitespace).subset h2

theorem pyNegSign_true_mem (l : List Char) (h : pyNegSign l = true) : '-' ∈ l := by
  cases l with
  | nil => exact absurd h (by decide)
  | cons c t =>
    have hc : c = '-' := eq_of_beq h
    rw [hc]
    exact List.mem_cons_self '-' t

theorem ratOfPyDec_nonneg (p : PyDecParts) : 0 ≤ ratOfPyDec p := by
  unfold ratOfPyDec
  by_cases he : p.expNeg = true
  · rw [if_pos he]
    positivity
  · rw [if_neg he]
    positivity

/-- C8 as amended: the parser does not itself reject negative numbers or
special values, but it never produces a negative result from an input
without a minus sign. For every input string containing no minus sign
that `parse_dollar_string` accepts, the result is not negative - it is a
non-negative finite money value, +infinity, or NaN - and in particular
every finite result is ≥ 0; rejecting non-positive (or non-finite)
results is left to the caller. -/
theorem C8_parse_nonneg_without_minus (s : String) (v : PyFloat)
    (hm : '-' ∉ s.data) (h : parse_dollar_string_py s = some v) :
    v.isNeg = false ∧ ∀ q : ℚ, v = PyFloat.finite q → 0 ≤ q := by
  have hml : '-' ∉ trimChars (stripSymbols s.data) := fun hc =>
    hm (List.mem_of_mem_filter (mem_of_mem_trimChars hc))
  have hsign : pyNegSign (trimChars (stripSymbols s.data)) = false := by
    cases hb : pyNegSign (trimChars (stripSymbols s.data)) with
    | false => rfl
    | true => exact absurd (pyNegSign_true_mem _ hb) hml
  unfold parse_dollar_string_py pyFloatOfChars at h
  by_cases hinf : isInfStr (pyBody (trimChars (stripSymbols s.data))) = true
  · rw [if_pos hinf, hsign] at h
    simp only [Bool.false_eq_true, if_false, Option.some.injEq] at h
    refine ⟨h ▸ rfl, ?_⟩
    intro q hq
    rw [← h] at hq
    exact absurd hq (by simp)
  · rw [if_neg hinf] at h
    by_cases hnan : isNanStr (pyBody (trimChars (stripSymbols s.data))) = true
    · rw [if_pos hnan] at h
      simp only [Option.some.injEq] at h
      refine ⟨h ▸ rfl, ?_⟩
      intro q hq
      rw [← h] at hq
      exact absurd hq (by simp)
    · rw [if_neg hnan] at h
      cases hp : pyDecimalParts (pyBody (trimChars (stripSymbols s.data))) with
      | none =>
        rw [hp] at h
        exact absurd h (by simp)
      | some p =>
        rw [hp] at h
        simp only [Option.map_some', Option.some.injEq, hsign, Bool.false_eq_true,
          if_false] at h
        constructor
        · rw [← h]
          show decide (ratOfPyDec p < 0) = false
          exact decide_eq_false (not_lt.mpr (ratOfPyDec_nonneg p))
        · intro q hq
          rw [← h] at hq
          injection hq with hq2
          rw [← hq2]
          exact ratOfPyDec_nonneg p

theorem C8_parse_nonneg_without_minus_witness :
    (PyFloat.finite (7 : ℚ)).isNeg = false ∧
    ∀ q : ℚ, PyFloat.finite (7 : ℚ) = PyFloat.finite q → 0 ≤ q :=
  C8_parse_nonneg_without_minus "7" (PyFloat.finite 7) (by decide)
    (by
      unfold parse_dollar_string_py
      rw [show trimChars (stripSymbols ("7".data)) = ['7'] from by decide]
      unfold pyFloatOfChars
      rw [if_neg (by decide : ¬(isInfStr (pyBody ['7']) = true)),
        if_neg (by decide : ¬(isNanStr (pyBody ['7']) = true)),
        show pyDecimalParts (pyBody ['7']) = some ⟨7, 0, 0, false, 0⟩ from by decide]
      show some (PyFloat.finite (if pyNegSign ['7'] then
          -(ratOfPyDec ⟨7, 0, 0, false, 0⟩) else ratOfPyDec ⟨7, 0, 0, false, 0⟩))
        = some (PyFloat.finite 7)
      rw [show pyNegSign ['7'] = false from rfl]
      norm_num [ratOfPyDec])

theorem format_dollar_value_dec89 : format_dollar_value (123456789/100 : ℚ) = "$1,234,568" := by
  have hf : ⌊(123456789/100 : ℚ)⌋ = 1234567 := by
    rw [Int.floor_eq_iff]
    norm_num
  have hr : roundHalfEven (123456789/100 : ℚ) = 1234568 := by
    unfold roundHalfEven
    rw [hf]
    norm_num
  have hd : digitsRev 1234568 = [8, 6, 5, 4, 3, 2, 1] := by
    rw [digitsRev_eq]
    norm_num [Nat.digits_def']
  unfold format_dollar_value
  rw [hr, if_neg (by norm_num : ¬((1234568 : ℤ) < 0)),
    show ((1234568 : ℤ)).natAbs = 1234568 from rfl]
  unfold formatNat natDigitsRepr
  rw [if_neg (by norm_num : ¬(1234568 = 0)), hd]
  decide

theorem format_dollar_value_250m : format_dollar_value (250000000 : ℚ) = "$250,000,000" := by
  have hf : ⌊(250000000 : ℚ)⌋ = 250000000 := by
    rw [Int.floor_eq_iff]
    norm_num
  have hr : roundHalfEven (250000000 : ℚ) = 250000000 := by
    unfold roundHalfEven
    rw [hf]
    norm_num
  have hd : digitsRev 250000000 = [0, 0, 0, 0, 0, 0, 0, 5, 2] := by
    rw [digitsRev_eq]
    norm_num [Nat.digits_def']
  unfold format_dollar_value
  rw [hr, if_neg (by norm_num : ¬((250000000 : ℤ) < 0)),
    show ((250000000 : ℤ)).natAbs = 250000000 from rfl]
  unfold formatNat natDigitsRepr
  rw [if_neg (by norm_num : ¬(250000000 = 0)), hd]
  decide

/-- C6 counterexample: the headline "Your return" figure does not retain
two decimal places. For the amount 1234567.89 the headline rendering is
the integer-rounded "$1,234,568", containing no decimal point at all
(a two-decimal mode would produce "$1,234,567.89"). -/
theorem C6_headline_two_decimals_counterexample :
    headline_formatted (123456789/100 : ℚ) = "$1,234,568" ∧
    ¬ ('.' ∈ (headline_formatted (123456789/100 : ℚ)).data) := by
  have h : headline_formatted (123456789/100 : ℚ) = "$1,234,568" :=
    format_dollar_value_dec89
  refine ⟨h, ?_⟩
  rw [h]
  decide

/-- C6 as amended: the dollar formatter has a single output mode -
integer-rounded, thousands-separated, with a leading dollar sign - and
that same mode is applied both to the comparison-table entries and to the
headline "your return" figure; no two-decimal precise mode exists in the
code. -/
theorem C6_single_format_mode :
    headline_formatted = table_formatted ∧
    table_formatted (123456789/100 : ℚ) = "$1,234,568" ∧
    headline_formatted (250000000 : ℚ) = "$250,000,000" := by
  refine ⟨rfl, format_dollar_value_dec89, format_dollar_value_250m⟩

theorem C7_parse_format_roundtrip_witness :
    parse_dollar_string (format_dollar_value ((1234567 : ℕ) : ℚ)) = some ((1234567 : ℕ) : ℚ) :=
  C7_parse_format_roundtrip 1234567
